import Mathlib

/-!
# Verification of the storytime timeline aggregation engine

Shallow embedding of the TypeScript sources of the storytime repository:

* `src/processors/timeline-processor.ts` — `TimelineProcessor.buildTimeline`,
  `deduplicateEvents`, `simpleHash`, `sortEventsByTimestamp`, `processEvents`;
* the NLP processor (`NLPProcessor.processEvents`, `analyzeSentiment`);
* `cli/advanced-cli.ts` — `GeoAnalyzer.enhanceEventsWithGeoData` and
  `NetworkAnalyzer.addOrUpdateEdge` / `processEntityCooccurrences`.

Conventions used throughout the embedding:

* JavaScript numbers are modelled as `ℚ` (all arithmetic performed by the
  embedded code is exact on the inputs it computes with), except where the
  source deliberately works with 32-bit integers (`simpleHash`), which is
  modelled as `Int` arithmetic reduced modulo `2^32` into `[-2^31, 2^31)`.
* Strings are Lean `String`s; the sources only ever lowercase, trim, split
  and compare them, and all string data relevant to the claims is ASCII,
  on which the Lean primitives agree with the JavaScript ones.
* A Luxon `DateTime` is modelled by the absolute instant (epoch
  milliseconds) plus the zone, represented by its UTC offset in minutes —
  exactly the two pieces of information `setZone`, `toMillis`,
  `startOf('minute')` and `toISO` depend on (time-zone offsets are whole
  minutes, so truncation to the minute commutes with the offset).
* A JavaScript `Map` is modelled as an insertion-ordered association list;
  `Map.set` on an existing key replaces the value in place, otherwise it
  appends (`mapSet` below), matching the JS iteration order semantics.
* `Promise.allSettled` over the per-platform ingestions is modelled by
  taking the list of settled outcomes — one `Except String (List Event)`
  per configured platform — as the input of `buildTimeline`.
-/

namespace Storytime

set_option maxRecDepth 16384

/-- Model of a Luxon `DateTime`: the instant in epoch milliseconds together
with the zone it is expressed in, reduced to the zone's UTC offset in
minutes (the only zone datum observable through `toMillis`/`toISO`). -/
structure Timestamp where
  millis : Int
  offsetMinutes : Int
deriving DecidableEq, Repr

/-- `DateTime.setZone(zone)`: re-expresses the timestamp in another zone.
The instant (`millis`) is unchanged; only the zone changes. -/
def Timestamp.setZone (t : Timestamp) (offset : Int) : Timestamp :=
  { millis := t.millis, offsetMinutes := offset }

/-- The minute bucket of `timestamp.startOf('minute')`.  For a zone whose
offset is a whole number of minutes, flooring local time to the minute is
the same as flooring the instant itself to the minute, i.e. floor division
of the epoch milliseconds by 60000. -/
def Timestamp.minuteBucket (t : Timestamp) : Int :=
  t.millis.fdiv 60000

/-- Optional coordinates carried in an entity's own `metadata` bag
(`bestLocation.metadata.lat` / `.lng` in `extractLocationFromEntities`). -/
structure EntityMetadata where
  lat : Option ℚ := none
  lng : Option ℚ := none
deriving DecidableEq, Repr

/-- An extracted entity (`Entity` in the type declarations): surface text,
type tag, confidence, and an optional metadata bag. -/
structure Entity where
  text : String
  type : String
  confidence : ℚ
  metadata : Option EntityMetadata := none
deriving DecidableEq, Repr

/-- Result of sentiment analysis (`SentimentScore`). -/
structure SentimentScore where
  score : ℚ
  magnitude : ℚ
  label : String
deriving DecidableEq, Repr

/-- A geographic location (`GeoLocation`). -/
structure GeoLocation where
  lat : ℚ
  lng : ℚ
  name : String
  countryCode : Option String := none
deriving DecidableEq, Repr

/-- Twitter geo metadata (`event.metadata.geo`): `coordinates` is `[]` when
the field is absent (an absent or too-short coordinates array is treated
identically by the source), `placeFullName` models `geo.place.full_name`. -/
structure TwitterGeo where
  coordinates : List ℚ := []
  placeName : Option String := none
  placeFullName : Option String := none
deriving DecidableEq, Repr

/-- The platform-specific metadata bag of an event, restricted to the
fields the embedded code reads.  An `Option` field is `none` when the JS
property is absent or falsy (the code only ever checks these fields for
truthiness before using them). -/
structure Metadata where
  lat : Option ℚ := none
  lng : Option ℚ := none
  locationName : Option String := none
  geo : Option TwitterGeo := none
  subreddit : Option String := none
deriving DecidableEq, Repr

/-- A unified timeline event (`TimelineEvent`), restricted to the fields
the embedded processors read or write.  `topics`/`language`/`sentiment`
are `Option`s so that "annotation not set" is distinguishable from an
annotation that happens to be empty. -/
structure Event where
  id : String
  platform : String
  category : String := "other"
  timestamp : Timestamp
  originalTimestamp : String := ""
  title : String := ""
  content : String := ""
  url : String := ""
  username : String := ""
  location : Option GeoLocation := none
  entities : List Entity := []
  sentiment : Option SentimentScore := none
  topics : Option (List String) := none
  language : Option String := none
  metadata : Metadata := {}
deriving DecidableEq, Repr

/-! ## Deduplication (`TimelineProcessor.simpleHash`, `deduplicateEvents`) -/

/-- JavaScript `ToInt32`: reduce an integer into `[-2^31, 2^31)`. -/
def toInt32 (n : Int) : Int :=
  (n + 2 ^ 31) % 2 ^ 32 - 2 ^ 31

/-- Drop leading whitespace from a character list (one side of
`String.prototype.trim`). -/
def dropLeadingWs : List Char → List Char
  | [] => []
  | c :: cs => if c.isWhitespace then dropLeadingWs cs else c :: cs

/-- `String.prototype.trim` on a character list: drop trailing whitespace
(via a reversal) and then leading whitespace. -/
def trimChars (cs : List Char) : List Char :=
  dropLeadingWs ((dropLeadingWs cs.reverse).reverse)

/-- `content.toLowerCase().trim()`, the content normalization of the
dedup fingerprint, computed on the character list (for the ASCII data the
processors compare, `Char.toLower` agrees with `toLowerCase`, and Lean's
whitespace class agrees with the JS one). -/
def normalizeContent (s : String) : List Char :=
  trimChars (s.data.map Char.toLower)

/-- `simpleHash`: `hash = ((hash << 5) - hash) + charCodeAt(i); hash &= hash`.
`hash << 5` is 32-bit wrapping multiplication by 32; the subsequent
subtraction and addition are exact, and `hash & hash` is `ToInt32`.
Characters of the claims' data are in the basic plane, where Lean's
`Char.toNat` agrees with `charCodeAt`. -/
def simpleHash (cs : List Char) : Int :=
  cs.foldl (fun h c => toInt32 (toInt32 (h * 32) - h + c.toNat)) 0

/-- The deduplication fingerprint.  The source builds the string
`platform + "-" + timestamp.startOf('minute').toISO() + "-" + contentHash`;
platform names contain no dash and the ISO rendering has a fixed shape
determined by the minute bucket and the zone offset, so the concatenation
is injective on the triple and is modelled by this key structure. -/
structure DedupeKey where
  platform : String
  timeKeyMinute : Int
  timeKeyOffset : Int
  contentHash : Int
deriving DecidableEq, Repr

/-- The fingerprint of one event: platform, timestamp truncated to the
minute (as rendered by `toISO`, hence together with the zone offset), and
the hash of the lowercased, trimmed content. -/
def dedupeKey (e : Event) : DedupeKey :=
  { platform := e.platform
    timeKeyMinute := e.timestamp.minuteBucket
    timeKeyOffset := e.timestamp.offsetMinutes
    contentHash := simpleHash (normalizeContent e.content) }

/-- The loop of `deduplicateEvents`: keep an event iff its fingerprint has
not been seen before, accumulating seen fingerprints. -/
def dedupGo (seen : List DedupeKey) : List Event → List Event
  | [] => []
  | e :: rest =>
    if dedupeKey e ∈ seen then dedupGo seen rest
    else e :: dedupGo (dedupeKey e :: seen) rest

/-- `TimelineProcessor.deduplicateEvents`. -/
def deduplicateEvents (events : List Event) : List Event :=
  dedupGo [] events

/-! ## Sorting

`Array.prototype.sort` is a stable sort (ES2019); with a comparator that
induces a total preorder its output is the unique permutation that is
sorted for the comparator and preserves the input order of tied elements.
`List.insertionSort` is exactly such a stable sort, so it is used as the
model of `.sort(...)`. -/

/-- Comparator of `buildTimeline`'s merge step:
`(a, b) => b.timestamp.toMillis() - a.timestamp.toMillis()`
(most recent first). -/
def byMillisDesc (a b : Event) : Prop :=
  b.timestamp.millis ≤ a.timestamp.millis

instance : DecidableRel byMillisDesc := fun a b =>
  inferInstanceAs (Decidable (b.timestamp.millis ≤ a.timestamp.millis))

/-- Comparator of `sortEventsByTimestamp`:
`(a, b) => a.timestamp.toMillis() - b.timestamp.toMillis()`. -/
def byMillisAsc (a b : Event) : Prop :=
  a.timestamp.millis ≤ b.timestamp.millis

instance : DecidableRel byMillisAsc := fun a b =>
  inferInstanceAs (Decidable (a.timestamp.millis ≤ b.timestamp.millis))

instance : IsTotal Event byMillisDesc :=
  ⟨fun a b => le_total b.timestamp.millis a.timestamp.millis⟩

instance : IsTrans Event byMillisDesc :=
  ⟨fun _ _ _ h1 h2 => le_trans h2 h1⟩

instance : IsTotal Event byMillisAsc :=
  ⟨fun a b => le_total a.timestamp.millis b.timestamp.millis⟩

instance : IsTrans Event byMillisAsc :=
  ⟨fun _ _ _ h1 h2 => le_trans h1 h2⟩

instance : DecidableEq (Except String (List Event)) := fun a b =>
  match a, b with
  | .ok x, .ok y => decidable_of_iff (x = y) (by simp)
  | .error x, .error y => decidable_of_iff (x = y) (by simp)
  | .ok _, .error _ => isFalse (by simp)
  | .error _, .ok _ => isFalse (by simp)

/-- The sort performed inside `buildTimeline` (most recent first). -/
def sortDescByTimestamp (events : List Event) : List Event :=
  events.insertionSort byMillisDesc

/-- `TimelineProcessor.sortEventsByTimestamp` (chronological order). -/
def sortEventsByTimestamp (events : List Event) : List Event :=
  events.insertionSort byMillisAsc

/-! ## The orchestrator (`TimelineProcessor.buildTimeline`)

`buildTimeline` maps `processEvents` over the configured platforms and
joins them with `Promise.allSettled`.  `processEvents` performs the
network ingestion and then re-zones every ingested event's timestamp into
the configured timezone; its settled outcome per platform — either the
list of ingested (not yet re-zoned) events or a rejection message — is the
input of the model.  The fulfilled lists are concatenated in platform
order (each re-zoned as `processEvents` does), rejected platforms only
produce a `console.error` line, and the concatenation is sorted most
recent first.  With the analysis options of the configuration absent (the
claims' configurations), the NLP branch is not taken, and no statement in
the `try` block can throw, so the function resolves with the sorted list:
its body never rethrows via the `catch` block. -/

/-- The timestamp normalization applied inside `processEvents`:
`event.timestamp.setZone(this.config.timezone)`, leaving every other
field unchanged. -/
def setZoneEvent (offset : Int) (e : Event) : Event :=
  { e with timestamp := e.timestamp.setZone offset }

/-- One settled per-platform ingestion outcome: the platform name together
with either the ingested events or the rejection message. -/
abbrev PlatformResult := String × Except String (List Event)

/-- The `results.forEach` collection loop of `buildTimeline`: concatenate
the fulfilled platforms' events in platform order (each list re-zoned by
`processEvents`), skip the rejected ones. -/
def settledEvents (offset : Int) : List PlatformResult → List Event
  | [] => []
  | pr :: rest =>
    match pr.2 with
    | .ok evs => evs.map (setZoneEvent offset) ++ settledEvents offset rest
    | .error _ => settledEvents offset rest

/-- `TimelineProcessor.buildTimeline` (events of the resolved promise):
collect the fulfilled platforms' re-zoned events and sort most recent
first. -/
def buildTimeline (offset : Int) (results : List PlatformResult) : List Event :=
  sortDescByTimestamp (settledEvents offset results)

/-- `buildTimeline` as seen by the caller: the settled outcome of the
returned promise.  Adapter rejections are absorbed by `allSettled`, and
nothing else in the body can throw, so the promise always resolves. -/
def buildTimelineRun (offset : Int) (results : List PlatformResult) :
    Except String (List Event) :=
  .ok (buildTimeline offset results)

/-- The `(platform, error)` pairs of the rejected adapters — the content of
the `console.error` lines the collection loop prints.  They are *not* part
of the value `buildTimeline` returns. -/
def failedAdapterPairs (results : List PlatformResult) : List (String × String) :=
  results.filterMap
    (fun pr =>
      match pr.2 with
      | .error msg => some (pr.1, msg)
      | .ok _ => none)

/-- Whether a settled per-platform outcome is fulfilled. -/
def resultOk (pr : PlatformResult) : Bool :=
  match pr.2 with
  | .ok _ => true
  | .error _ => false

/-! ## Sentiment analysis (`NLPProcessor.analyzeSentiment`)

The analyzer of the root NLP processor: tokenize the lowercased text with
`match(/\b(\w+)\b/g)` — the maximal runs of word characters — count the
tokens found in the fixed positive/negative word lists (a token in both
lists counts only as positive, because of the `else if`), and score by
the smoothed ratio. -/

/-- A JS regex word character: `[A-Za-z0-9_]`. -/
def isWordChar (c : Char) : Bool :=
  c.isAlpha || c.isDigit || c = '_'

/-- Split a character list into its maximal runs of word characters
(`curr` is the reversed run currently being read). -/
def tokensFrom (curr : List Char) : List Char → List (List Char)
  | [] => if curr = [] then [] else [curr.reverse]
  | c :: cs =>
    if isWordChar c then tokensFrom (c :: curr) cs
    else if curr = [] then tokensFrom [] cs
    else curr.reverse :: tokensFrom [] cs

/-- `text.toLowerCase().match(/\b(\w+)\b/g) || []`. -/
def tokenizeWords (s : String) : List String :=
  (tokensFrom [] (s.data.map Char.toLower)).map (fun cs => String.mk cs)

/-- The fixed positive word list of `analyzeSentiment`. -/
def positiveWords : List String :=
  ["good", "great", "excellent", "amazing", "awesome", "fantastic", "wonderful",
   "like", "love", "happy", "glad", "positive", "nice", "beautiful", "perfect",
   "best", "better", "improved", "impressive", "thank", "thanks", "appreciated",
   "exciting", "excited", "win", "winning", "success", "successful"]

/-- The fixed negative word list of `analyzeSentiment`. -/
def negativeWords : List String :=
  ["bad", "terrible", "awful", "horrible", "worst", "poor", "negative",
   "hate", "dislike", "sad", "unhappy", "angry", "annoyed", "disappointed",
   "fail", "failed", "failure", "problem", "issue", "bug", "error", "wrong",
   "broken", "useless", "difficult", "hard", "confusing", "frustrated"]

/-- The counting loop: `positiveCount` and `negativeCount` (a word on the
positive list is never also counted as negative, per the `else if`). -/
def posNegCounts : List String → Nat × Nat
  | [] => (0, 0)
  | w :: ws =>
    if w ∈ positiveWords then ((posNegCounts ws).1 + 1, (posNegCounts ws).2)
    else if w ∈ negativeWords then ((posNegCounts ws).1, (posNegCounts ws).2 + 1)
    else posNegCounts ws

/-- The local `score` variable before clamping:
`totalWords > 0 ? (pos - neg) / Math.min(totalWords, pos + neg + 5) : 0`. -/
def sentimentRawScore (text : String) : ℚ :=
  if 0 < (tokenizeWords text).length then
    (((posNegCounts (tokenizeWords text)).1 : ℚ) - ((posNegCounts (tokenizeWords text)).2 : ℚ)) /
      min ((tokenizeWords text).length : ℚ)
        (((posNegCounts (tokenizeWords text)).1 : ℚ) + ((posNegCounts (tokenizeWords text)).2 : ℚ) + 5)
  else 0

/-- The `magnitude` variable:
`(pos + neg) / Math.max(1, totalWords) * 5`. -/
def sentimentMagnitude (text : String) : ℚ :=
  (((posNegCounts (tokenizeWords text)).1 : ℚ) + ((posNegCounts (tokenizeWords text)).2 : ℚ)) /
    max 1 ((tokenizeWords text).length : ℚ) * 5

/-- The label thresholds, applied to the unclamped score. -/
def sentimentLabel (text : String) : String :=
  if sentimentRawScore text > 1 / 10 then "positive"
  else if sentimentRawScore text < -(1 / 10) then "negative"
  else "neutral"

/-- `NLPProcessor.analyzeSentiment`: the returned record, with the score
clamped into `[-1, 1]` by `Math.max(-1, Math.min(1, score))`. -/
def analyzeSentiment (text : String) : SentimentScore :=
  { score := max (-1) (min 1 (sentimentRawScore text))
    magnitude := sentimentMagnitude text
    label := sentimentLabel text }

/-! ## NLP enrichment over events (`NLPProcessor.processEvents`)

The per-event loop copies the event, passes it through unchanged when its
content is empty or whitespace-only, and otherwise sets the enabled
annotations from the per-text stage functions.  The stage functions are
parameters of the embedding (the skip behaviour under scrutiny does not
depend on them), bundled in `NLPStages`. -/

/-- The per-text enrichment functions of the NLP processor. -/
structure NLPStages where
  detectLanguage : String → String
  extractEntities : String → List Entity
  analyzeSentiment : String → SentimentScore
  modelTopics : String → List String

/-- The `enabled` flags of the NLP processor configuration (all default to
`true`, as in the constructor). -/
structure NLPProcConfig where
  languageDetection : Bool := true
  entityExtraction : Bool := true
  sentimentAnalysis : Bool := true
  topicModeling : Bool := true

/-- The body of the `processEvents` loop for one event: skip events whose
content is empty or whitespace-only (`!event.content ||
event.content.trim().length === 0`), otherwise apply the enabled stages. -/
def enrichEvent (st : NLPStages) (cfg : NLPProcConfig) (e : Event) : Event :=
  if trimChars e.content.data = [] then e
  else
    let e1 := if cfg.languageDetection then
        { e with language := some (st.detectLanguage e.content) } else e
    let e2 := if cfg.entityExtraction then
        { e1 with entities := st.extractEntities e.content } else e1
    let e3 := if cfg.sentimentAnalysis then
        { e2 with sentiment := some (st.analyzeSentiment e.content) } else e2
    if cfg.topicModeling then { e3 with topics := some (st.modelTopics e.content) } else e3

/-- `NLPProcessor.processEvents`: the loop pushes one enriched copy per
input event, in order. -/
def nlpProcessEvents (st : NLPStages) (cfg : NLPProcConfig) (events : List Event) : List Event :=
  events.map (enrichEvent st cfg)

/-! ## JavaScript string-keyed maps

A JavaScript `Map` keyed by strings, as an insertion-ordered association
list: `set` on a present key replaces the value in place, otherwise it
appends; `get` finds the first (unique) binding. -/

/-- `Map.prototype.get`. -/
def mapGet {α : Type} : List (String × α) → String → Option α
  | [], _ => none
  | (k', v) :: rest, k => if k' = k then some v else mapGet rest k

/-- `Map.prototype.set`. -/
def mapSet {α : Type} : List (String × α) → String → α → List (String × α)
  | [], k, v => [(k, v)]
  | (k', v') :: rest, k, v =>
    if k' = k then (k, v) :: rest else (k', v') :: mapSet rest k v

/-! ## The Geo Tagger (`GeoAnalyzer`)

`enhanceEventsWithGeoData` resolves, for each event without a location:
explicit metadata coordinates, then platform geo metadata, then location
entities, then capitalized content tokens — each against the static
gazetteer; first match wins, otherwise `location` stays unset. -/

/-- The geo analysis configuration (constructor defaults). -/
structure GeoAnalysisConfig where
  enabled : Bool := true
  minConfidence : ℚ := mkRat 7 10
deriving DecidableEq, Repr

/-- `this.config.minConfidence || 0.7` — the `||` falls back on a falsy
(zero) configured value. -/
def geoThreshold (cfg : GeoAnalysisConfig) : ℚ :=
  if cfg.minConfidence = 0 then mkRat 7 10 else cfg.minConfidence

/-- `subreddit.split(' ')`-style single-space split (keeps empties), for
the display-name computation of the gazetteer. -/
def splitOnSpace (curr : List Char) : List Char → List (List Char)
  | [] => [curr.reverse]
  | c :: cs =>
    if c = ' ' then curr.reverse :: splitOnSpace [] cs
    else splitOnSpace (c :: curr) cs

/-- `name.split(' ').map(w => w.charAt(0).toUpperCase() + w.slice(1)).join(' ')`. -/
def capitalizeWords (s : String) : String :=
  String.intercalate " "
    ((splitOnSpace [] s.data).map
      (fun w =>
        match w with
        | [] => ""
        | c :: cs => String.mk (c.toUpper :: cs)))

/-- One gazetteer row: lowercase key, coordinates, capitalized display
name, country code.  Coordinates are written as exact rationals
(`mkRat n 10000` renders the four-decimal literals of the source). -/
def mkPlace (key : String) (lat lng : ℚ) (code : String) : String × GeoLocation :=
  (key, { lat := lat, lng := lng, name := capitalizeWords key, countryCode := some code })

/-- `initializeLocationDatabase`: the cities followed by the countries, in
source order. -/
def locationDatabase : List (String × GeoLocation) :=
  [mkPlace "new york" (mkRat 407128 10000) (mkRat (-740060) 10000) "US",
   mkPlace "los angeles" (mkRat 340522 10000) (mkRat (-1182437) 10000) "US",
   mkPlace "chicago" (mkRat 418781 10000) (mkRat (-876298) 10000) "US",
   mkPlace "houston" (mkRat 297604 10000) (mkRat (-953698) 10000) "US",
   mkPlace "phoenix" (mkRat 334484 10000) (mkRat (-1120740) 10000) "US",
   mkPlace "philadelphia" (mkRat 399526 10000) (mkRat (-751652) 10000) "US",
   mkPlace "san antonio" (mkRat 294241 10000) (mkRat (-984936) 10000) "US",
   mkPlace "san diego" (mkRat 327157 10000) (mkRat (-1171611) 10000) "US",
   mkPlace "dallas" (mkRat 327767 10000) (mkRat (-967970) 10000) "US",
   mkPlace "san francisco" (mkRat 377749 10000) (mkRat (-1224194) 10000) "US",
   mkPlace "seattle" (mkRat 476062 10000) (mkRat (-1223321) 10000) "US",
   mkPlace "boston" (mkRat 423601 10000) (mkRat (-710589) 10000) "US",
   mkPlace "atlanta" (mkRat 337490 10000) (mkRat (-843880) 10000) "US",
   mkPlace "miami" (mkRat 257617 10000) (mkRat (-801918) 10000) "US",
   mkPlace "london" (mkRat 515074 10000) (mkRat (-1278) 10000) "GB",
   mkPlace "paris" (mkRat 488566 10000) (mkRat 23522 10000) "FR",
   mkPlace "tokyo" (mkRat 356762 10000) (mkRat 1396503 10000) "JP",
   mkPlace "beijing" (mkRat 399042 10000) (mkRat 1164074 10000) "CN",
   mkPlace "sydney" (mkRat (-338688) 10000) (mkRat 1512093 10000) "AU",
   mkPlace "rio de janeiro" (mkRat (-229068) 10000) (mkRat (-431729) 10000) "BR",
   mkPlace "mexico city" (mkRat 194326 10000) (mkRat (-991332) 10000) "MX",
   mkPlace "cairo" (mkRat 300444 10000) (mkRat 312357 10000) "EG",
   mkPlace "moscow" (mkRat 557558 10000) (mkRat 376173 10000) "RU",
   mkPlace "berlin" (mkRat 525200 10000) (mkRat 134050 10000) "DE",
   mkPlace "madrid" (mkRat 404168 10000) (mkRat (-37038) 10000) "ES",
   mkPlace "rome" (mkRat 419028 10000) (mkRat 124964 10000) "IT",
   mkPlace "toronto" (mkRat 436532 10000) (mkRat (-793832) 10000) "CA",
   mkPlace "mumbai" (mkRat 190760 10000) (mkRat 728777 10000) "IN",
   mkPlace "singapore" (mkRat 13521 10000) (mkRat 1038198 10000) "SG",
   mkPlace "dubai" (mkRat 252048 10000) (mkRat 552708 10000) "AE",
   mkPlace "united states" (mkRat 370902 10000) (mkRat (-957129) 10000) "US",
   mkPlace "usa" (mkRat 370902 10000) (mkRat (-957129) 10000) "US",
   mkPlace "uk" (mkRat 553781 10000) (mkRat (-34360) 10000) "GB",
   mkPlace "united kingdom" (mkRat 553781 10000) (mkRat (-34360) 10000) "GB",
   mkPlace "canada" (mkRat 561304 10000) (mkRat (-1063468) 10000) "CA",
   mkPlace "australia" (mkRat (-252744) 10000) (mkRat 1337751 10000) "AU",
   mkPlace "germany" (mkRat 511657 10000) (mkRat 104515 10000) "DE",
   mkPlace "france" (mkRat 462276 10000) (mkRat 22137 10000) "FR",
   mkPlace "italy" (mkRat 418719 10000) (mkRat 125674 10000) "IT",
   mkPlace "spain" (mkRat 404637 10000) (mkRat (-37492) 10000) "ES",
   mkPlace "japan" (mkRat 362048 10000) (mkRat 1382529 10000) "JP",
   mkPlace "china" (mkRat 358617 10000) (mkRat 1041954 10000) "CN",
   mkPlace "india" (mkRat 205937 10000) (mkRat 789629 10000) "IN",
   mkPlace "brazil" (mkRat (-142350) 10000) (mkRat (-519253) 10000) "BR",
   mkPlace "russia" (mkRat 615240 10000) (mkRat 1053188 10000) "RU",
   mkPlace "mexico" (mkRat 236345 10000) (mkRat (-1025528) 10000) "MX"]

/-- `GeoAnalyzer.lookupLocationByName`: exact, case-insensitive lookup of
the lowercased, trimmed name. -/
def lookupLocationByName (name : String) : Option GeoLocation :=
  mapGet locationDatabase (String.mk (trimChars (name.data.map Char.toLower)))

/-- The reddit tail of `extractLocationFromMetadata`: a subreddit of the
form `r/<name>` (after lowercasing) is looked up in the gazetteer;
anything else yields no location. -/
def redditLocation (e : Event) : Option GeoLocation :=
  if e.platform = "reddit" then
    match e.metadata.subreddit with
    | some sub =>
      match sub.data.map Char.toLower with
      | 'r' :: '/' :: rest => lookupLocationByName (String.mk rest)
      | _ => none
    | none => none
  else none

/-- `GeoAnalyzer.extractLocationFromMetadata`: direct coordinates first,
then twitter geo metadata (coordinate pair, then place name), then the
reddit subreddit heuristic. -/
def extractLocationFromMetadata (e : Event) : Option GeoLocation :=
  match e.metadata.lat, e.metadata.lng with
  | some la, some ln =>
    some { lat := la, lng := ln, name := e.metadata.locationName.getD "Unknown Location" }
  | _, _ =>
    if e.platform = "twitter" then
      match e.metadata.geo with
      | some geo =>
        match geo.coordinates with
        | la :: ln :: _ =>
          some { lat := la, lng := ln, name := geo.placeName.getD "Twitter Location" }
        | _ =>
          match geo.placeFullName with
          | some fn =>
            match lookupLocationByName fn with
            | some loc => some loc
            | none => redditLocation e
          | none => redditLocation e
      | none => redditLocation e
    else redditLocation e

/-- The `reduce` of `extractLocationFromEntities`: keep the entity with
the strictly highest confidence (earlier entity wins ties). -/
def bestOf (first : Entity) (rest : List Entity) : Entity :=
  rest.foldl (fun prev cur => if prev.confidence < cur.confidence then cur else prev) first

/-- The tail of `extractLocationFromEntities` on the filtered location
entities: take the most confident one; use its own metadata coordinates
if both are present, otherwise look its text up in the gazetteer. -/
def entityPick : List Entity → Option GeoLocation
  | [] => none
  | first :: rest =>
    match (bestOf first rest).metadata with
    | some m =>
      match m.lat, m.lng with
      | some la, some ln => some { lat := la, lng := ln, name := (bestOf first rest).text }
      | _, _ => lookupLocationByName (bestOf first rest).text
    | none => lookupLocationByName (bestOf first rest).text

/-- `GeoAnalyzer.extractLocationFromEntities`: among the location-typed
entities above the confidence threshold, pick by `entityPick`. -/
def extractLocationFromEntities (cfg : GeoAnalysisConfig) (e : Event) : Option GeoLocation :=
  if e.entities = [] then none
  else
    entityPick (e.entities.filter
      (fun ent => ent.type = "location" && decide (geoThreshold cfg ≤ ent.confidence)))

/-- The maximal non-whitespace runs of a string — the result of
`content.split(/\s+/)` up to boundary empty strings, which the location
scan ignores (an empty word is shorter than 3 characters and matches no
capitalized-word pattern). -/
def nonWsRuns (curr : List Char) : List Char → List (List Char)
  | [] => if curr = [] then [] else [curr.reverse]
  | c :: cs =>
    if c.isWhitespace then
      (if curr = [] then nonWsRuns [] cs else curr.reverse :: nonWsRuns [] cs)
    else nonWsRuns (c :: curr) cs

/-- The word list the content scan iterates over. -/
def contentWords (s : String) : List String :=
  (nonWsRuns [] s.data).map (fun cs => String.mk cs)

/-- `word.replace(/[^\w\s]/g, '')`: strip punctuation. -/
def stripPunct (cs : List Char) : List Char :=
  cs.filter (fun c => isWordChar c || c.isWhitespace)

/-- The test `/^[A-Z][a-z]+$/`. -/
def isCapWordChars : List Char → Bool
  | [] => false
  | c :: cs => c.isUpper && !cs.isEmpty && cs.all Char.isLower

/-- The `potentialLocations` loop of `extractLocationFromContent`: per
word (punctuation-stripped, at least 3 characters), a capitalized single
word, then a capitalized pair with the following raw word. -/
def potentialLocations : List String → List String
  | [] => []
  | w :: rest =>
    if (String.mk (stripPunct w.data)).length < 3 then potentialLocations rest
    else
      (if isCapWordChars (stripPunct w.data) then [String.mk (stripPunct w.data)] else []) ++
      (match rest with
       | next :: _ =>
         if isCapWordChars (stripPunct w.data) && isCapWordChars next.data then
           [String.mk (stripPunct w.data) ++ " " ++ next]
         else []
       | [] => []) ++
      potentialLocations rest

/-- The final matching loop: the first potential location found in the
gazetteer wins. -/
def firstLookup : List String → Option GeoLocation
  | [] => none
  | l :: rest =>
    match lookupLocationByName l with
    | some g => some g
    | none => firstLookup rest

/-- `GeoAnalyzer.extractLocationFromContent`. -/
def extractLocationFromContent (e : Event) : Option GeoLocation :=
  if e.content = "" then none
  else firstLookup (potentialLocations (contentWords e.content))

/-- The per-event body of `enhanceEventsWithGeoData`: keep an existing
location, otherwise try the three extractors in order; on no match the
event is pushed unchanged, its `location` still unset. -/
def enhanceOne (cfg : GeoAnalysisConfig) (e : Event) : Event :=
  if e.location.isSome then e
  else
    match extractLocationFromMetadata e with
    | some loc => { e with location := some loc }
    | none =>
      match extractLocationFromEntities cfg e with
      | some loc => { e with location := some loc }
      | none =>
        match extractLocationFromContent e with
        | some loc => { e with location := some loc }
        | none => e

/-- `GeoAnalyzer.enhanceEventsWithGeoData` (the early return when the
stage is disabled, else the per-event loop). -/
def enhanceEventsWithGeoData (cfg : GeoAnalysisConfig) (events : List Event) : List Event :=
  if cfg.enabled then events.map (enhanceOne cfg) else events

/-! ## The relationship graph (`NetworkAnalyzer`)

A JavaScript `Map` keyed by strings, as an insertion-ordered association
list: `set` on a present key replaces the value in place, otherwise it
appends; `get` finds the first (unique) binding. -/

/-- An edge property value: the scalar as first assigned, or the array a
collision merged it into (`[old, value]`, then `push`). -/
inductive PropValue where
  | scalar : String → PropValue
  | array : List String → PropValue
deriving DecidableEq, Repr

/-- The property-merge loop of `addOrUpdateEdge`: push onto an existing
array, turn an existing scalar into a two-element array, otherwise set
the scalar. -/
def mergeProp (props : List (String × PropValue)) (kv : String × String) :
    List (String × PropValue) :=
  match mapGet props kv.1 with
  | some (.array vs) => mapSet props kv.1 (.array (vs ++ [kv.2]))
  | some (.scalar s) => mapSet props kv.1 (.array [s, kv.2])
  | none => mapSet props kv.1 (.scalar kv.2)

/-- An edge record of the network graph (`NetworkEdge`). -/
structure NetworkEdge where
  source : String
  target : String
  type : String
  weight : Int
  properties : List (String × PropValue)
deriving DecidableEq, Repr

/-- Lexicographic comparison of character lists by code point — the
comparison the default JS `sort()` applies to strings (code units; equal
to code points on the data at hand). -/
def charListLe : List Char → List Char → Bool
  | [], _ => true
  | _ :: _, [] => false
  | c :: cs, d :: ds =>
    if c.toNat < d.toNat then true
    else if d.toNat < c.toNat then false
    else charListLe cs ds

/-- String comparison as performed by the default JS `sort()`. -/
def jsStringLe (s t : String) : Bool :=
  charListLe s.data t.data

/-- `[source, target].sort()`: the default JS sort compares the strings
lexicographically; on two elements it swaps them iff the second is
smaller. -/
def sortPair (s t : String) : String × String :=
  if jsStringLe s t then (s, t) else (t, s)

/-- The canonical edge id: `sortedSource + "|" + type + "|" + sortedTarget`. -/
def edgeKey (s t ty : String) : String :=
  (sortPair s t).1 ++ "|" ++ ty ++ "|" ++ (sortPair s t).2

/-- `NetworkAnalyzer.addOrUpdateEdge`: update the record under the
canonical id (accumulate the weight, merge the properties), or create a
new record carrying the endpoints in discovery order. -/
def addOrUpdateEdge (edges : List (String × NetworkEdge)) (source target ty : String)
    (weight : Int) (props : List (String × String)) : List (String × NetworkEdge) :=
  match mapGet edges (edgeKey source target ty) with
  | some edge =>
    mapSet edges (edgeKey source target ty)
      { edge with
          weight := edge.weight + weight
          properties := props.foldl mergeProp edge.properties }
  | none =>
    edges ++ [(edgeKey source target ty,
      { source := source, target := target, type := ty, weight := weight
        properties := props.map (fun kv => (kv.1, PropValue.scalar kv.2)) })]

/-- Insertion into a JS `Set` of strings (insertion-ordered, no
duplicates). -/
def insertNoDup (l : List String) (s : String) : List String :=
  if s ∈ l then l else l ++ [s]

/-- The entity id set collected per event by `processEntityCooccurrences`:
`entity:<type>:<text>` for every entity with confidence ≥ 0.6. -/
def entitySetOf (e : Event) : List String :=
  e.entities.foldl
    (fun acc ent =>
      if mkRat 6 10 ≤ ent.confidence then
        insertNoDup acc ("entity:" ++ ent.type ++ ":" ++ ent.text)
      else acc)
    []

/-- The `eventEntityMap`: event id ↦ its entity set, for events with at
least one entity and an entity set of size > 1. -/
def eventEntityMap (events : List Event) : List (String × List String) :=
  events.foldl
    (fun m e =>
      if e.entities = [] then m
      else if 1 < (entitySetOf e).length then mapSet m e.id (entitySetOf e)
      else m)
    []

/-- The double loop over `entityIds`: one `cooccurs_with` edge of weight 1
(carrying the event id) per unordered pair, pairs in index order. -/
def addPairEdges (edges : List (String × NetworkEdge)) (eventId : String) :
    List String → List (String × NetworkEdge)
  | [] => edges
  | x :: rest =>
    addPairEdges
      (rest.foldl
        (fun es y => addOrUpdateEdge es x y "cooccurs_with" 1 [("eventId", eventId)])
        edges)
      eventId rest

/-- `NetworkAnalyzer.processEntityCooccurrences` (the `edges` map it
mutates, threaded explicitly). -/
def processEntityCooccurrences (events : List Event)
    (edges : List (String × NetworkEdge)) : List (String × NetworkEdge) :=
  (eventEntityMap events).foldl (fun es pr => addPairEdges es pr.1 pr.2) edges

/-! ## Concrete events used by witnesses and counterexamples -/

/-- An event with whitespace-only content. -/
def blankEv : Event :=
  { id := "b", platform := "rss"
    timestamp := { millis := 0, offsetMinutes := 0 }
    content := "   " }

/-- Concrete NLP stage functions for the witness. -/
def wStages : NLPStages :=
  { detectLanguage := fun _ => "en"
    extractEntities := fun _ => []
    analyzeSentiment := fun t => analyzeSentiment t
    modelTopics := fun _ => [] }

/-- An organization entity above the co-occurrence threshold. -/
def acmeEnt : Entity :=
  { text := "Acme", type := "organization", confidence := mkRat 9 10 }

/-- A person entity above the co-occurrence threshold. -/
def bobEnt : Entity :=
  { text := "Bob", type := "person", confidence := mkRat 9 10 }

/-- First event mentioning both entities (Acme first). -/
def nEv1 : Event :=
  { id := "e1", platform := "twitter"
    timestamp := { millis := 0, offsetMinutes := 0 }
    entities := [acmeEnt, bobEnt] }

/-- Second event mentioning both entities, discovered in the *opposite*
order (Bob first). -/
def nEv2 : Event :=
  { id := "e2", platform := "twitter"
    timestamp := { millis := 1000, offsetMinutes := 0 }
    entities := [bobEnt, acmeEnt] }

/-- A location entity whose name matches nothing in the gazetteer but
which carries explicit coordinates in its own metadata. -/
def geoEnt : Entity :=
  { text := "Zzzland", type := "location", confidence := mkRat 9 10
    metadata := some { lat := some 1, lng := some 2 } }

/-- An event with no pre-existing location, no metadata coordinates, no
platform geo metadata, empty content, and `geoEnt` as its only entity. -/
def geoEv : Event :=
  { id := "ge", platform := "github"
    timestamp := { millis := 0, offsetMinutes := 0 }
    content := ""
    entities := [geoEnt] }

/-- An event with no location signal at all. -/
def plainEv : Event :=
  { id := "pe", platform := "github"
    timestamp := { millis := 0, offsetMinutes := 0 }
    content := "hello world" }

/-- A concrete edge record for the claim C7 witness. -/
def wEdge : NetworkEdge :=
  { source := "a", target := "b", type := "cooccurs_with", weight := 1
    properties := [("eventId", PropValue.scalar "e1")] }

/-- A concrete one-edge map for the claim C7 witness. -/
def wEdges : List (String × NetworkEdge) :=
  [(edgeKey "a" "b" "cooccurs_with", wEdge)]

/-- First github event of the spec's `buildTimeline` scenario:
minute bucket 1, second 0. -/
def gEv1 : Event :=
  { id := "g1", platform := "github", category := "code_push"
    timestamp := { millis := 60000, offsetMinutes := 0 }
    content := "Pushed 3 commits" }

/-- Second github event of the scenario: identical content, 4 seconds
later, same minute. -/
def gEv2 : Event :=
  { id := "g2", platform := "github", category := "code_push"
    timestamp := { millis := 64000, offsetMinutes := 0 }
    content := "Pushed 3 commits" }

/-- The twitter event of the scenario: different content, one minute
later. -/
def tEv : Event :=
  { id := "t1", platform := "twitter", category := "post"
    timestamp := { millis := 120000, offsetMinutes := 0 }
    content := "Hello world" }

/-- The settled ingestion results of the spec's three-event scenario: the
github adapter returns the two near-duplicate events, the twitter adapter
the third one. -/
def scenarioResults : List PlatformResult :=
  [("github", Except.ok [gEv1, gEv2]), ("twitter", Except.ok [tEv])]

/-- A run in which the twitter adapter rejects and the github adapter
returns one event. -/
def rsFailTwitter : List PlatformResult :=
  [("twitter", Except.error "boom"), ("github", Except.ok [gEv1])]

/-- The same run without the failed adapter. -/
def rsOnlyGithub : List PlatformResult :=
  [("github", Except.ok [gEv1])]

/-- Two events with equal timestamps but different `(platform, id)`. -/
def tieA : Event :=
  { id := "a", platform := "github"
    timestamp := { millis := 1000, offsetMinutes := 0 } }

/-- Tied with `tieA`, later in `(platform, id)` order. -/
def tieB : Event :=
  { id := "b", platform := "twitter"
    timestamp := { millis := 1000, offsetMinutes := 0 } }

/-! # Theorems -/

/-- Helper: rejected adapters contribute nothing — the collected events of
a run equal those of the run restricted to its fulfilled adapters. -/
theorem settledEvents_filter_ok (offset : Int) (rs : List PlatformResult) :
    settledEvents offset rs = settledEvents offset (rs.filter resultOk) := by
  induction rs with
  | nil => rfl
  | cons pr rest ih =>
    match hpr : pr.2 with
    | .ok evs =>
      have hok : resultOk pr = true := by simp [resultOk, hpr]
      simp only [settledEvents, List.filter_cons, hok, if_pos, hpr, ih]
    | .error msg =>
      have hok : resultOk pr = false := by simp [resultOk, hpr]
      simp only [settledEvents, List.filter_cons, hok, hpr, ih, Bool.false_eq_true,
        if_false]

/-- Helper: the collected events are the fulfilled adapters' event lists,
flattened in platform order and re-zoned. -/
theorem settledEvents_eq_flatten (offset : Int) (rs : List PlatformResult) :
    settledEvents offset rs
      = ((rs.filterMap (fun pr => pr.2.toOption)).flatten).map (setZoneEvent offset) := by
  induction rs with
  | nil => rfl
  | cons pr rest ih =>
    match hpr : pr.2 with
    | .ok evs =>
      simp [settledEvents, hpr, ih, List.filterMap_cons, Except.toOption]
    | .error msg =>
      simp [settledEvents, hpr, ih, List.filterMap_cons, Except.toOption]

/-- Helper for claim C5: running the dedup loop on its own output (with the
same starting set of seen fingerprints) changes nothing — every surviving
event's fingerprint is exactly the first occurrence relative to the seen
set threaded through the loop. -/
theorem dedupGo_idem :
    ∀ (xs : List Event) (seen : List DedupeKey),
      dedupGo seen (dedupGo seen xs) = dedupGo seen xs := by
  intro xs
  induction xs with
  | nil => intro seen; rfl
  | cons e rest ih =>
    intro seen
    by_cases h : dedupeKey e ∈ seen
    · simp only [dedupGo, if_pos h]
      exact ih seen
    · simp only [dedupGo, if_pos (List.mem_cons_self _ _), if_neg h]
      exact congrArg (e :: ·) (ih (dedupeKey e :: seen))

/-- Claim C1 (counterexample): on the spec's scenario input — two github
events with identical content 4 seconds apart in the same minute plus one
twitter event — `buildTimeline` returns *three* events, not two
(`deduplicateEvents` is never invoked by `buildTimeline`), and the first
returned event is the latest one, not the earliest: the sort comparator is
`b.timestamp.toMillis() - a.timestamp.toMillis()` (most recent first). -/
theorem buildTimeline_scenario_counterexample :
    (buildTimeline 0 scenarioResults).length = 3 ∧
    (buildTimeline 0 scenarioResults).head? = some tEv := by
  decide

/-- Claim C1 (amended): on the scenario input `buildTimeline` returns all
three events ordered most recent first; the (unused) `deduplicateEvents`
function applied to the same three events would indeed drop the second
github duplicate. -/
theorem buildTimeline_scenario_actual :
    buildTimeline 0 scenarioResults = [tEv, gEv2, gEv1] ∧
    deduplicateEvents [gEv1, gEv2, tEv] = [gEv1, tEv] := by
  decide

/-- Claim C2 (counterexample): the pipeline's merge is not ascending by
timestamp — on a github event at minute 1 and a twitter event at minute 2,
`buildTimeline` puts the *later* event first — and the sorts apply no
`(platform, id)` tie-break: two different input permutations of the same
two tied events produce two different output orders. -/
theorem merge_order_counterexample :
    (buildTimeline 0 [("github", Except.ok [gEv1, tEv])] = [tEv, gEv1] ∧
      gEv1.timestamp.millis < tEv.timestamp.millis) ∧
    sortEventsByTimestamp [tieA, tieB] ≠ sortEventsByTimestamp [tieB, tieA] := by
  decide

/-- Claim C2 (amended): the merge performed by the pipeline sorts
*descending* by timestamp (most recent first) and `sortEventsByTimestamp`
sorts ascending by timestamp; both use only the timestamp, with no
`(platform, id)` tie-break; both outputs are permutations of the input. -/
theorem merge_order_actual (offset : Int) (rs : List PlatformResult) (evs : List Event) :
    List.Sorted byMillisDesc (buildTimeline offset rs) ∧
    List.Sorted byMillisAsc (sortEventsByTimestamp evs) ∧
    (sortEventsByTimestamp evs).Perm evs ∧
    (buildTimeline offset rs).Perm (settledEvents offset rs) :=
  ⟨List.sorted_insertionSort byMillisDesc (settledEvents offset rs),
   List.sorted_insertionSort byMillisAsc evs,
   List.perm_insertionSort byMillisAsc evs,
   List.perm_insertionSort byMillisDesc (settledEvents offset rs)⟩

/-- Claim C3 (counterexample): the value `buildTimeline` returns to its
caller does not contain the `(platform, error)` pairs of the failed
adapters: no function of the returned value can recover them, because a
run in which the twitter adapter failed with "boom" and a run with no
failed adapter at all return the *same* value.  (The failures are only
printed to the console by the collection loop.) -/
theorem buildTimeline_returns_no_warning_pairs :
    ¬ ∃ f : Except String (List Event) → List (String × String),
        ∀ rs : List PlatformResult,
          f (buildTimelineRun 0 rs) = failedAdapterPairs rs := by
  rintro ⟨f, hf⟩
  have h1 := hf rsFailTwitter
  have h2 := hf rsOnlyGithub
  rw [show buildTimelineRun 0 rsFailTwitter = buildTimelineRun 0 rsOnlyGithub from by decide]
    at h1
  rw [h1] at h2
  exact absurd h2 (by decide)

/-- Claim C3 (amended): `buildTimeline` never throws when adapters fail —
the per-platform ingestions are joined with `Promise.allSettled`, rejected
platforms contribute zero events (the result equals that of the run
restricted to the fulfilled platforms), and the caller receives only the
best-effort event list; the `(platform, error)` pairs of the failed
adapters are written to the console, not returned. -/
theorem buildTimeline_never_throws (offset : Int) (rs : List PlatformResult) :
    buildTimelineRun offset rs = Except.ok (buildTimeline offset rs) ∧
    buildTimeline offset rs = buildTimeline offset (rs.filter resultOk) :=
  ⟨rfl, congrArg sortDescByTimestamp (settledEvents_filter_ok offset rs)⟩

/-- Claim C9: adapter failures are isolated and timestamps are re-zoned
without moving the instant.  The output of `buildTimeline` equals the
output on the fulfilled platforms alone (a failed platform contributes
zero events); it is a permutation of the concatenation, in platform
order, of the fulfilled adapters' events re-zoned to the configured
timezone; and every returned event is an ingested event whose timestamp
carries the target zone offset with its epoch-milliseconds instant
unchanged. -/
theorem buildTimeline_isolation_and_timezone (offset : Int) (rs : List PlatformResult) :
    buildTimeline offset rs = buildTimeline offset (rs.filter resultOk) ∧
    (buildTimeline offset rs).Perm
      (((rs.filterMap (fun pr => pr.2.toOption)).flatten).map (setZoneEvent offset)) ∧
    ∀ e ∈ buildTimeline offset rs,
      ∃ raw,
        raw ∈ (rs.filterMap (fun pr => pr.2.toOption)).flatten ∧
        e = setZoneEvent offset raw ∧
        e.timestamp.millis = raw.timestamp.millis ∧
        e.timestamp.offsetMinutes = offset := by
  refine ⟨congrArg sortDescByTimestamp (settledEvents_filter_ok offset rs), ?_, ?_⟩
  · rw [← settledEvents_eq_flatten]
    exact List.perm_insertionSort byMillisDesc (settledEvents offset rs)
  · intro e he
    have hperm : (buildTimeline offset rs).Perm (settledEvents offset rs) :=
      List.perm_insertionSort byMillisDesc (settledEvents offset rs)
    have he2 : e ∈ settledEvents offset rs := hperm.mem_iff.mp he
    rw [settledEvents_eq_flatten] at he2
    obtain ⟨raw, hraw, hre⟩ := List.mem_map.mp he2
    exact ⟨raw, hraw, hre.symm, by rw [← hre]; rfl, by rw [← hre]; rfl⟩

/-- Witness for claim C9: in the run where twitter fails and github
returns one event, the single returned event is the github event, re-zoned
(here to its own offset 0) with its instant untouched. -/
theorem buildTimeline_isolation_and_timezone_witness :
    ∃ raw,
      raw ∈ (rsFailTwitter.filterMap (fun pr => pr.2.toOption)).flatten ∧
      gEv1 = setZoneEvent 0 raw ∧
      gEv1.timestamp.millis = raw.timestamp.millis ∧
      gEv1.timestamp.offsetMinutes = 0 :=
  (buildTimeline_isolation_and_timezone 0 rsFailTwitter).2.2 gEv1 (by decide)

/-- Claim C5: `deduplicateEvents` is idempotent — for every list of events
`xs`, `deduplicateEvents (deduplicateEvents xs) = deduplicateEvents xs`. -/
theorem deduplicateEvents_idempotent (xs : List Event) :
    deduplicateEvents (deduplicateEvents xs) = deduplicateEvents xs :=
  dedupGo_idem xs []

/-- Claim C4: two events with the same platform, identical lowercased and
trimmed content and same-zone timestamps are collapsed to the first one by
`deduplicateEvents` when their timestamps fall in the same minute, and both
are kept when they fall in different minutes. -/
theorem dedup_same_minute (e1 e2 : Event)
    (hp : e1.platform = e2.platform)
    (hc : normalizeContent e1.content = normalizeContent e2.content)
    (hz : e1.timestamp.offsetMinutes = e2.timestamp.offsetMinutes) :
    (e1.timestamp.minuteBucket = e2.timestamp.minuteBucket →
        deduplicateEvents [e1, e2] = [e1]) ∧
    (e1.timestamp.minuteBucket ≠ e2.timestamp.minuteBucket →
        deduplicateEvents [e1, e2] = [e1, e2]) := by
  constructor
  · intro hm
    have hkey : dedupeKey e2 = dedupeKey e1 := by
      simp [dedupeKey, hp, hc, hz, hm]
    simp [deduplicateEvents, dedupGo, hkey]
  · intro hm
    have hkey : dedupeKey e2 ≠ dedupeKey e1 := by
      intro h
      exact hm (congrArg DedupeKey.timeKeyMinute h).symm
    simp [deduplicateEvents, dedupGo, hkey]

/-- Witness for claim C4: the two github events of the scenario share a
fingerprint (same platform, same content, 4 seconds apart inside minute 1),
so only the first survives; against the twitter event's minute they would
both be kept. -/
theorem dedup_same_minute_witness :
    deduplicateEvents [gEv1, gEv2] = [gEv1] :=
  (dedup_same_minute gEv1 gEv2 rfl rfl rfl).1 (by decide)

/-- Helper for claim C6: a token is counted at most once (positive or
negative, never both), so the two counts together never exceed the number
of tokens. -/
theorem posNegCounts_le_length (ws : List String) :
    (posNegCounts ws).1 + (posNegCounts ws).2 ≤ ws.length := by
  induction ws with
  | nil => simp [posNegCounts]
  | cons w ws ih =>
    simp only [posNegCounts, List.length_cons]
    split_ifs <;> omega

/-- Helper for claim C6: the smoothed ratio score is already within
`[-1, 1]` before clamping, because `pos + neg ≤ totalWords` makes the
denominator at least as large as `|pos - neg|`. -/
theorem sentimentRawScore_bounds (text : String) :
    -1 ≤ sentimentRawScore text ∧ sentimentRawScore text ≤ 1 := by
  have hcount := posNegCounts_le_length (tokenizeWords text)
  unfold sentimentRawScore
  split_ifs with htot
  · have hp : (0 : ℚ) ≤ ((posNegCounts (tokenizeWords text)).1 : ℚ) := Nat.cast_nonneg _
    have hn : (0 : ℚ) ≤ ((posNegCounts (tokenizeWords text)).2 : ℚ) := Nat.cast_nonneg _
    have htotq : (1 : ℚ) ≤ ((tokenizeWords text).length : ℚ) := by exact_mod_cast htot
    have hd : (0 : ℚ) < min ((tokenizeWords text).length : ℚ)
        (((posNegCounts (tokenizeWords text)).1 : ℚ) +
          ((posNegCounts (tokenizeWords text)).2 : ℚ) + 5) :=
      lt_min (by linarith) (by linarith)
    have hcq : ((posNegCounts (tokenizeWords text)).1 : ℚ) +
        ((posNegCounts (tokenizeWords text)).2 : ℚ) ≤ ((tokenizeWords text).length : ℚ) := by
      exact_mod_cast hcount
    have habs : |((posNegCounts (tokenizeWords text)).1 : ℚ) -
        ((posNegCounts (tokenizeWords text)).2 : ℚ)| ≤
        ((posNegCounts (tokenizeWords text)).1 : ℚ) +
          ((posNegCounts (tokenizeWords text)).2 : ℚ) :=
      abs_le.mpr ⟨by linarith, by linarith⟩
    have hpn_le : ((posNegCounts (tokenizeWords text)).1 : ℚ) +
        ((posNegCounts (tokenizeWords text)).2 : ℚ) ≤
        min ((tokenizeWords text).length : ℚ)
          (((posNegCounts (tokenizeWords text)).1 : ℚ) +
            ((posNegCounts (tokenizeWords text)).2 : ℚ) + 5) :=
      le_min hcq (by linarith)
    have h1 : |(((posNegCounts (tokenizeWords text)).1 : ℚ) -
        ((posNegCounts (tokenizeWords text)).2 : ℚ)) /
        min ((tokenizeWords text).length : ℚ)
          (((posNegCounts (tokenizeWords text)).1 : ℚ) +
            ((posNegCounts (tokenizeWords text)).2 : ℚ) + 5)| ≤ 1 := by
      rw [abs_div, abs_of_pos hd]
      exact (div_le_one hd).mpr (le_trans habs hpn_le)
    exact abs_le.mp h1
  · norm_num

/-- Helper for claim C6: the clamp `Math.max(-1, Math.min(1, score))` is
the identity on the score the analyzer computes. -/
theorem sentimentScore_clamp (text : String) :
    (analyzeSentiment text).score = sentimentRawScore text := by
  obtain ⟨h1, h2⟩ := sentimentRawScore_bounds text
  show max (-1) (min 1 (sentimentRawScore text)) = sentimentRawScore text
  rw [min_eq_right h2, max_eq_right h1]

/-- Claim C6: the sentiment score equals `(pos - neg) / min(totalTokens,
pos + neg + 5)` clamped to `[-1, 1]` (0 when the text has no tokens),
where `pos`/`neg` count the tokens of the lowercased text on the fixed
word lists; the score always lies in `[-1, 1]`; the label is "positive"
iff score > 0.1, "negative" iff score < -0.1, otherwise "neutral"; and a
text with zero lexicon matches scores exactly 0 and is labelled
"neutral". -/
theorem analyzeSentiment_spec (text : String) :
    ((analyzeSentiment text).score =
      if 0 < (tokenizeWords text).length then
        (((posNegCounts (tokenizeWords text)).1 : ℚ) -
            ((posNegCounts (tokenizeWords text)).2 : ℚ)) /
          min ((tokenizeWords text).length : ℚ)
            (((posNegCounts (tokenizeWords text)).1 : ℚ) +
              ((posNegCounts (tokenizeWords text)).2 : ℚ) + 5)
      else 0) ∧
    (-1 ≤ (analyzeSentiment text).score ∧ (analyzeSentiment text).score ≤ 1) ∧
    ((analyzeSentiment text).label = "positive" ↔ 1 / 10 < (analyzeSentiment text).score) ∧
    ((analyzeSentiment text).label = "negative" ↔ (analyzeSentiment text).score < -(1 / 10)) ∧
    ((analyzeSentiment text).label = "neutral" ↔
      ¬ 1 / 10 < (analyzeSentiment text).score ∧
        ¬ (analyzeSentiment text).score < -(1 / 10)) ∧
    ((posNegCounts (tokenizeWords text)).1 = 0 ∧ (posNegCounts (tokenizeWords text)).2 = 0 →
      (analyzeSentiment text).score = 0 ∧ (analyzeSentiment text).label = "neutral") := by
  have hclamp := sentimentScore_clamp text
  have hb := sentimentRawScore_bounds text
  have hlabel : (analyzeSentiment text).label = sentimentLabel text := rfl
  refine ⟨by rw [hclamp]; rfl, by rw [hclamp]; exact hb, ?_, ?_, ?_, ?_⟩
  · rw [hclamp, hlabel]
    unfold sentimentLabel
    split_ifs with h1 h2
    · exact iff_of_true rfl h1
    · exact iff_of_false (by decide) h1
    · exact iff_of_false (by decide) h1
  · rw [hclamp, hlabel]
    unfold sentimentLabel
    split_ifs with h1 h2
    · exact iff_of_false (by decide) (by intro h; exact absurd h1 (not_lt.mpr (by linarith)))
    · exact iff_of_true rfl h2
    · exact iff_of_false (by decide) h2
  · rw [hclamp, hlabel]
    unfold sentimentLabel
    split_ifs with h1 h2
    · exact iff_of_false (by decide) (fun h => h.1 h1)
    · exact iff_of_false (by decide) (fun h => h.2 h2)
    · exact iff_of_true rfl ⟨h1, h2⟩
  · rintro ⟨hp, hn⟩
    have hz : sentimentRawScore text = 0 := by
      unfold sentimentRawScore
      rw [hp, hn]
      split_ifs <;> simp
    constructor
    · rw [hclamp, hz]
    · rw [hlabel]
      unfold sentimentLabel
      rw [hz]
      norm_num

/-- Witness for claim C6: "hello world" has two tokens and no lexicon
match, so it scores exactly 0 and is labelled "neutral". -/
theorem analyzeSentiment_spec_witness :
    (analyzeSentiment "hello world").score = 0 ∧
    (analyzeSentiment "hello world").label = "neutral" :=
  (analyzeSentiment_spec "hello world").2.2.2.2.2 (by decide)

/-- Claim C10: NLP enrichment passes events with empty or whitespace-only
content through completely unchanged — for any stage functions and any
configuration (in particular with every stage enabled), the output event
at the position of such an input event *is* the input event, with no
annotation added; the batch keeps its length. -/
theorem nlp_blank_content_unchanged (st : NLPStages) (cfg : NLPProcConfig)
    (evs : List Event) (i : Nat) (e : Event)
    (hi : evs[i]? = some e) (hblank : trimChars e.content.data = []) :
    (nlpProcessEvents st cfg evs).length = evs.length ∧
    (nlpProcessEvents st cfg evs)[i]? = some e := by
  constructor
  · simp [nlpProcessEvents]
  · rw [nlpProcessEvents, List.getElem?_map, hi]
    simp [enrichEvent, hblank]

/-- Witness for claim C10: a whitespace-only event is returned unchanged
by the enrichment pass. -/
theorem nlp_blank_content_unchanged_witness :
    (nlpProcessEvents wStages {} [blankEv]).length = 1 ∧
    (nlpProcessEvents wStages {} [blankEv])[0]? = some blankEv :=
  nlp_blank_content_unchanged wStages {} [blankEv] 0 blankEv rfl (by decide)

/-- Helper for claim C7: the code-point comparison is total. -/
theorem charListLe_total :
    ∀ cs ds, charListLe cs ds = true ∨ charListLe ds cs = true := by
  intro cs
  induction cs with
  | nil => intro ds; left; rfl
  | cons c cs ih =>
    intro ds
    cases ds with
    | nil => right; rfl
    | cons d ds =>
      by_cases h1 : c.toNat < d.toNat
      · left; simp [charListLe, h1]
      · by_cases h2 : d.toNat < c.toNat
        · right; simp [charListLe, h2]
        · rcases ih ds with h | h
          · left; simp [charListLe, h1, h2, h]
          · right; simp [charListLe, h1, h2, h]

/-- Helper for claim C7: the code-point comparison is antisymmetric. -/
theorem charListLe_antisymm :
    ∀ cs ds, charListLe cs ds = true → charListLe ds cs = true → cs = ds := by
  intro cs
  induction cs with
  | nil =>
    intro ds h1 h2
    cases ds with
    | nil => rfl
    | cons d ds => exact absurd h2 (by simp [charListLe])
  | cons c cs ih =>
    intro ds h1 h2
    cases ds with
    | nil => exact absurd h1 (by simp [charListLe])
    | cons d ds =>
      by_cases hcd : c.toNat < d.toNat
      · have : ¬ d.toNat < c.toNat := by omega
        simp [charListLe, hcd, this] at h2
      · by_cases hdc : d.toNat < c.toNat
        · simp [charListLe, hcd, hdc] at h1
        · have hce : c = d := Char.ext (UInt32.ext (by
            simp only [Char.toNat] at hcd hdc
            omega))
          subst hce
          simp only [charListLe, if_neg hcd, if_neg hdc] at h1 h2
          rw [ih ds h1 h2]

/-- Helper for claim C7: the canonical edge id is independent of the
order in which the two endpoints are passed. -/
theorem edgeKey_comm (s t ty : String) : edgeKey s t ty = edgeKey t s ty := by
  unfold edgeKey sortPair
  by_cases hst : jsStringLe s t = true
  · by_cases hts : jsStringLe t s = true
    · have h : s = t := String.ext (charListLe_antisymm s.data t.data hst hts)
      subst h
      rfl
    · rw [if_pos hst, if_neg (by simpa using hts)]
  · have hts : jsStringLe t s = true :=
      (charListLe_total s.data t.data).resolve_left hst
    rw [if_neg (by simpa using hst), if_pos hts]

/-- Helper for claim C7: `get` after `set` on the same key returns the
new value. -/
theorem mapGet_mapSet_self {α : Type} (es : List (String × α)) (k : String) (v : α) :
    mapGet (mapSet es k v) k = some v := by
  induction es with
  | nil => simp [mapGet, mapSet]
  | cons p rest ih =>
    obtain ⟨k', v'⟩ := p
    by_cases h : k' = k
    · simp [mapGet, mapSet, h]
    · simp [mapGet, mapSet, h, ih]

/-- Helper for claim C7: `set` on a key already bound replaces the value
in place, leaving the key sequence unchanged. -/
theorem mapSet_keys_of_get_some {α : Type} (es : List (String × α)) (k : String) (v : α)
    (h : (mapGet es k).isSome) :
    (mapSet es k v).map Prod.fst = es.map Prod.fst := by
  induction es with
  | nil => simp [mapGet] at h
  | cons p rest ih =>
    obtain ⟨k', v'⟩ := p
    by_cases hk : k' = k
    · simp [mapSet, hk]
    · simp only [mapGet, if_neg hk] at h
      simp [mapSet, hk, ih h]

/-- Helper for claim C7: a key is absent from the binding sequence iff
`get` misses. -/
theorem mapGet_eq_none_iff {α : Type} (es : List (String × α)) (k : String) :
    mapGet es k = none ↔ k ∉ es.map Prod.fst := by
  induction es with
  | nil => simp [mapGet]
  | cons p rest ih =>
    obtain ⟨k', v'⟩ := p
    by_cases hk : k' = k
    · simp [mapGet, hk]
    · simp [mapGet, hk, ih, Ne.symm hk]

/-- Claim C7: edges are keyed canonically — the id is invariant under
swapping the endpoints, adding an edge keeps the key sequence
duplicate-free with exactly one record under the canonical id, a repeated
discovery (in either endpoint order) accumulates onto the existing
record's weight while merging its properties, a property colliding with
an existing scalar becomes a two-element array, and concretely: two
events whose entity sets are `{Acme, Bob}` (discovered in opposite
orders) produce exactly one `cooccurs_with` edge of weight 2 with the two
event ids merged into one array-valued property. -/
theorem networkGraph_canonical_edges :
    (∀ s t ty, edgeKey s t ty = edgeKey t s ty) ∧
    (∀ (es : List (String × NetworkEdge)) s t ty w p,
      (es.map Prod.fst).Nodup →
        ((addOrUpdateEdge es s t ty w p).map Prod.fst).Nodup ∧
        ((addOrUpdateEdge es s t ty w p).map Prod.fst).count (edgeKey s t ty) = 1) ∧
    (∀ (es : List (String × NetworkEdge)) s t ty w p ed,
      mapGet es (edgeKey s t ty) = some ed →
        mapGet (addOrUpdateEdge es t s ty w p) (edgeKey s t ty) =
          some { ed with
                   weight := ed.weight + w
                   properties := p.foldl mergeProp ed.properties }) ∧
    (∀ (props : List (String × PropValue)) k v s,
      mapGet props k = some (PropValue.scalar s) →
        mapGet (mergeProp props (k, v)) k = some (PropValue.array [s, v])) ∧
    processEntityCooccurrences [nEv1, nEv2] [] =
      [(edgeKey "entity:organization:Acme" "entity:person:Bob" "cooccurs_with",
        { source := "entity:organization:Acme", target := "entity:person:Bob"
          type := "cooccurs_with", weight := 2
          properties := [("eventId", PropValue.array ["e1", "e2"])] })] := by
  refine ⟨edgeKey_comm, ?_, ?_, ?_, by decide⟩
  · intro es s t ty w p hnd
    unfold addOrUpdateEdge
    match hget : mapGet es (edgeKey s t ty) with
    | some edge =>
      have hkeys := mapSet_keys_of_get_some es (edgeKey s t ty)
        ({ edge with
             weight := edge.weight + w
             properties := p.foldl mergeProp edge.properties }) (by rw [hget]; rfl)
      rw [hkeys]
      refine ⟨hnd, List.count_eq_one_of_mem hnd ?_⟩
      have : (mapGet es (edgeKey s t ty)).isSome := by rw [hget]; rfl
      by_contra hmem
      rw [(mapGet_eq_none_iff es (edgeKey s t ty)).mpr hmem] at hget
      exact Option.noConfusion hget
    | none =>
      have hmem : edgeKey s t ty ∉ es.map Prod.fst :=
        (mapGet_eq_none_iff es (edgeKey s t ty)).mp hget
      simp only [List.map_append, List.map_cons, List.map_nil]
      constructor
      · rw [List.nodup_append]
        refine ⟨hnd, List.nodup_singleton _, ?_⟩
        intro a ha hb
        rw [List.mem_singleton] at hb
        exact hmem (hb ▸ ha)
      · rw [List.count_append]
        simp [List.count_eq_zero.mpr hmem]
  · intro es s t ty w p ed hget
    unfold addOrUpdateEdge
    rw [← edgeKey_comm, hget]
    exact mapGet_mapSet_self es (edgeKey s t ty) _
  · intro props k v s hget
    unfold mergeProp
    simp only [hget]
    exact mapGet_mapSet_self props k _

/-- Witness for claim C7: starting from a one-edge map, rediscovering the
edge with the endpoints swapped leaves a single record with weight 2 and
the two event ids merged into an array property; the key sequence stays
duplicate-free with exactly one binding for the canonical id. -/
theorem networkGraph_canonical_edges_witness :
    (((addOrUpdateEdge wEdges "a" "b" "cooccurs_with" 1 [("eventId", "e2")]).map
        Prod.fst).Nodup ∧
      ((addOrUpdateEdge wEdges "a" "b" "cooccurs_with" 1 [("eventId", "e2")]).map
        Prod.fst).count (edgeKey "a" "b" "cooccurs_with") = 1) ∧
    mapGet (addOrUpdateEdge wEdges "b" "a" "cooccurs_with" 1 [("eventId", "e2")])
        (edgeKey "a" "b" "cooccurs_with") =
      some { source := "a", target := "b", type := "cooccurs_with", weight := 2
             properties := [("eventId", PropValue.array ["e1", "e2"])] } := by
  constructor
  · exact networkGraph_canonical_edges.2.1 wEdges "a" "b" "cooccurs_with" 1
      [("eventId", "e2")] (by decide)
  · have h := networkGraph_canonical_edges.2.2.1 wEdges "a" "b" "cooccurs_with" 1
      [("eventId", "e2")] wEdge (by decide)
    exact h.trans (by decide)

/-- Helper for claim C8: the most confident entity returned by the
`reduce` is one of the filtered entities. -/
theorem bestOf_mem (first : Entity) (rest : List Entity) :
    bestOf first rest ∈ first :: rest := by
  unfold bestOf
  induction rest generalizing first with
  | nil => exact List.mem_singleton_self first
  | cons c cs ih =>
    simp only [List.foldl_cons]
    rcases List.mem_cons.mp (ih (if first.confidence < c.confidence then c else first)) with
      h1 | h1
    · rw [h1]
      by_cases hcc : first.confidence < c.confidence
      · rw [if_pos hcc]
        exact List.mem_cons_of_mem first (List.mem_cons_self c cs)
      · rw [if_neg hcc]
        exact List.mem_cons_self first _
    · exact List.mem_cons_of_mem first (List.mem_cons_of_mem c h1)

/-- Helper for claim C8: when no candidate is in the gazetteer, the
matching loop finds nothing. -/
theorem firstLookup_eq_none :
    ∀ (l : List String), (∀ w ∈ l, lookupLocationByName w = none) →
      firstLookup l = none := by
  intro l
  induction l with
  | nil => intro h; rfl
  | cons w rest ih =>
    intro h
    unfold firstLookup
    rw [h w (List.mem_cons_self w rest)]
    exact ih (fun x hx => h x (List.mem_cons_of_mem w hx))

/-- Helper for claim C8: with no metadata coordinates, no twitter geo
metadata and no reddit subreddit, the metadata extractor yields nothing. -/
theorem extractMeta_none (e : Event)
    (h2 : e.metadata.lat = none ∨ e.metadata.lng = none)
    (h3 : e.platform = "twitter" → e.metadata.geo = none)
    (h4 : e.platform = "reddit" → e.metadata.subreddit = none) :
    extractLocationFromMetadata e = none := by
  have hred : redditLocation e = none := by
    unfold redditLocation
    by_cases hr : e.platform = "reddit"
    · rw [if_pos hr, h4 hr]
    · rw [if_neg hr]
  have hbody :
      (if e.platform = "twitter" then
        match e.metadata.geo with
        | some geo =>
          match geo.coordinates with
          | la :: ln :: _ =>
            some { lat := la, lng := ln, name := geo.placeName.getD "Twitter Location" }
          | _ =>
            match geo.placeFullName with
            | some fn =>
              match lookupLocationByName fn with
              | some loc => some loc
              | none => redditLocation e
            | none => redditLocation e
        | none => redditLocation e
      else redditLocation e) = none := by
    by_cases ht : e.platform = "twitter"
    · rw [if_pos ht, h3 ht]
      exact hred
    · rw [if_neg ht]
      exact hred
  unfold extractLocationFromMetadata
  cases hla : e.metadata.lat with
  | none =>
    cases hln : e.metadata.lng with
    | none => exact hbody
    | some ln => exact hbody
  | some la =>
    cases hln : e.metadata.lng with
    | none => exact hbody
    | some ln =>
      rcases h2 with h | h
      · rw [hla] at h; exact absurd h (by simp)
      · rw [hln] at h; exact absurd h (by simp)

/-- Helper for claim C8: when every location entity above the threshold
neither matches the gazetteer nor carries a complete coordinate pair in
its metadata, the entity extractor yields nothing. -/
theorem extractEnt_none (cfg : GeoAnalysisConfig) (e : Event)
    (h5 : ∀ ent ∈ e.entities, ent.type = "location" →
      geoThreshold cfg ≤ ent.confidence →
        lookupLocationByName ent.text = none ∧
        ∀ m, ent.metadata = some m → m.lat = none ∨ m.lng = none) :
    extractLocationFromEntities cfg e = none := by
  unfold extractLocationFromEntities
  by_cases hne : e.entities = []
  · rw [if_pos hne]
  · rw [if_neg hne]
    rcases hfil : e.entities.filter
        (fun ent => ent.type = "location" && decide (geoThreshold cfg ≤ ent.confidence)) with
      _ | ⟨first, rest⟩
    · rw [hfil]
      rfl
    · rw [hfil]
      have hmem : bestOf first rest ∈ e.entities.filter
          (fun ent => ent.type = "location" && decide (geoThreshold cfg ≤ ent.confidence)) := by
        rw [hfil]; exact bestOf_mem first rest
      have hmem2 := List.mem_filter.mp hmem
      obtain ⟨hmemE, hprop⟩ := hmem2
      have htp : (bestOf first rest).type = "location" := by
        have := (Bool.and_eq_true _ _).mp hprop
        exact of_decide_eq_true this.1
      have hconf : geoThreshold cfg ≤ (bestOf first rest).confidence := by
        have := (Bool.and_eq_true _ _).mp hprop
        exact of_decide_eq_true this.2
      obtain ⟨hlk, hmeta⟩ := h5 _ hmemE htp hconf
      simp only [entityPick]
      cases hbm : (bestOf first rest).metadata with
      | none => exact hlk
      | some m =>
        obtain ⟨mlat, mlng⟩ := m
        rcases hmeta ⟨mlat, mlng⟩ hbm with h | h
        · have hmla : mlat = none := h
          subst hmla
          cases mlng with
          | none => exact hlk
          | some ln => exact hlk
        · have hmln : mlng = none := h
          subst hmln
          cases mlat with
          | none => exact hlk
          | some la => exact hlk

/-- Helper for claim C8: when no capitalized single or double word of the
content is in the gazetteer, the content scan yields nothing. -/
theorem extractContent_none (e : Event)
    (h6 : ∀ w ∈ potentialLocations (contentWords e.content),
      lookupLocationByName w = none) :
    extractLocationFromContent e = none := by
  unfold extractLocationFromContent
  by_cases hc : e.content = ""
  · rw [if_pos hc]
  · rw [if_neg hc]
    exact firstLookup_eq_none _ h6

/-- Claim C8 (counterexample): the Geo Tagger *can* set a location on an
event satisfying every condition of the claim — no pre-existing location,
no metadata or platform geo signal, no gazetteer match among its location
entities or its (empty) content — because a location entity carrying
explicit `lat`/`lng` in its own metadata is used directly, without any
gazetteer match.  `enhanceEventsWithGeoData` sets that event's location. -/
theorem geoTagger_fabrication_counterexample :
    (geoEv.location = none ∧
      geoEv.metadata.lat = none ∧ geoEv.metadata.lng = none ∧
      geoEv.metadata.geo = none ∧ geoEv.metadata.subreddit = none ∧
      (∀ ent ∈ geoEv.entities, lookupLocationByName ent.text = none) ∧
      potentialLocations (contentWords geoEv.content) = []) ∧
    enhanceEventsWithGeoData {} [geoEv] =
      [{ geoEv with location := some { lat := 1, lng := 2, name := "Zzzland" } }] ∧
    ({ geoEv with
        location := some { lat := 1, lng := 2, name := "Zzzland" } } : Event).location ≠
      none := by
  decide

/-- Claim C8 (amended): the Geo Tagger never fabricates coordinates — for
every event with no pre-existing location, no explicit metadata `lat`/`lng`
pair, no platform geo metadata, no location-typed entity above the
confidence threshold that matches the gazetteer *or carries an explicit
coordinate pair in its own metadata*, and no capitalized single- or
double-word content token matching the gazetteer (exact, case-insensitive
matching), `enhanceEventsWithGeoData` leaves that event's `location`
unset. -/
theorem geoTagger_never_fabricates (cfg : GeoAnalysisConfig) (e : Event)
    (h1 : e.location = none)
    (h2 : e.metadata.lat = none ∨ e.metadata.lng = none)
    (h3 : e.platform = "twitter" → e.metadata.geo = none)
    (h4 : e.platform = "reddit" → e.metadata.subreddit = none)
    (h5 : ∀ ent ∈ e.entities, ent.type = "location" →
      geoThreshold cfg ≤ ent.confidence →
        lookupLocationByName ent.text = none ∧
        ∀ m, ent.metadata = some m → m.lat = none ∨ m.lng = none)
    (h6 : ∀ w ∈ potentialLocations (contentWords e.content),
      lookupLocationByName w = none) :
    (enhanceOne cfg e).location = none ∧
    ∀ (evs : List Event) (i : Nat) (e1 : Event),
      evs[i]? = some e → (enhanceEventsWithGeoData cfg evs)[i]? = some e1 →
        e1.location = none := by
  have hone : (enhanceOne cfg e).location = none := by
    unfold enhanceOne
    rw [h1]
    simp only [Option.isSome_none, Bool.false_eq_true, if_false]
    rw [extractMeta_none e h2 h3 h4, extractEnt_none cfg e h5, extractContent_none e h6]
    exact h1
  refine ⟨hone, ?_⟩
  intro evs i e1 hi hout
  unfold enhanceEventsWithGeoData at hout
  by_cases hen : cfg.enabled
  · rw [if_pos hen, List.getElem?_map, hi] at hout
    simp only [Option.map_some'] at hout
    have he1 : enhanceOne cfg e = e1 := Option.some.inj hout
    rw [← he1]
    exact hone
  · rw [if_neg hen, hi] at hout
    have he1 : e = e1 := Option.some.inj hout
    rw [← he1]
    exact h1

/-- Witness for claim C8 (amended): a github event with content
"hello world", no entities and no metadata keeps its `location` unset. -/
theorem geoTagger_never_fabricates_witness :
    (enhanceOne {} plainEv).location = none ∧
    (enhanceEventsWithGeoData {} [plainEv])[0]? = some plainEv := by
  have h := geoTagger_never_fabricates {} plainEv (by decide) (by decide)
    (by decide) (by decide) (by decide) (by decide)
  refine ⟨h.1, ?_⟩
  have : (enhanceOne {} plainEv) = plainEv := by decide
  simp [enhanceEventsWithGeoData, this]

end Storytime
